import Mathlib

/-!
Verification of the canvas_scrape extraction-and-reconciliation pipeline.

The JavaScript sources are shallowly embedded over lists of characters:
JS strings become `List Char`, JS objects become structures, nullable
fields become `Option`, exceptions become `Except`/explicit outcome
constructors, and the per-item reconciliation loops become `List.map`
over pure step functions.  Each definition mirrors one function of the
repository (named in its doc comment); external library calls
(for example the chrono-node date parser and the Date ISO rendering) enter the
model as explicit parameters or as injective canonical encodings.
-/

/-- JS strings are modelled as lists of characters. -/
abbrev Str := List Char

/-- Character class of the regex \s and of String.prototype.trim, restricted
to the ASCII whitespace characters that can actually occur in the scraped
text. -/
def isRegexWs (c : Char) : Bool :=
  c = ' ' || c = '\t' || c = '\n' || c = '\r' || c = '\x0b' || c = '\x0c'

/-- Character class [a-z0-9]. -/
def isLowerAlnum (c : Char) : Bool :=
  (97 ≤ c.toNat && c.toNat ≤ 122) || (48 ≤ c.toNat && c.toNat ≤ 57)

/-- Character class \d. -/
def isDigitCh (c : Char) : Bool :=
  48 ≤ c.toNat && c.toNat ≤ 57

/-- JS String.prototype.replace with a plain-string pattern: replaces only the
leftmost occurrence of pat (none of the replacement patterns used by the
repository contains dollar escapes). -/
def replaceFirst (pat repl : Str) : Str → Str
  | [] => []
  | c :: rest =>
    if pat.isPrefixOf (c :: rest) then repl ++ (c :: rest).drop pat.length
    else c :: replaceFirst pat repl rest

/-- JS String.prototype.trim. -/
def trimChars (s : Str) : Str :=
  ((s.dropWhile isRegexWs).reverse.dropWhile isRegexWs).reverse

/-- Number of positions of s at which pat occurs (overlapping occurrences
are counted separately). -/
def occCount (pat : Str) : Str → Nat
  | [] => 0
  | c :: rest => (if pat.isPrefixOf (c :: rest) then 1 else 0) + occCount pat rest

/-- Boolean substring test, modelling JS String.prototype.includes. -/
def containsSub (pat : Str) : Str → Bool
  | [] => pat.isEmpty
  | c :: rest => pat.isPrefixOf (c :: rest) || containsSub pat rest

/-- Helper for the regex /\s+/g replacement: the Boolean flag records whether
the previous character was part of a whitespace run already emitted as a
single space. -/
def collapseWsAux : Bool → Str → Str
  | _, [] => []
  | prevWs, c :: rest =>
    if isRegexWs c then
      if prevWs then collapseWsAux true rest
      else ' ' :: collapseWsAux true rest
    else c :: collapseWsAux false rest

/-- JS replace(/\s+/g, " "): every maximal whitespace run becomes one space. -/
def collapseWs (s : Str) : Str := collapseWsAux false s

/-- Alternation (-|section) of the section regex: true when the text starts
with a dash or the word section, followed by a whitespace character. -/
def sectionFollows : Str → Bool
  | '-' :: d :: _ => isRegexWs d
  | 's' :: 'e' :: 'c' :: 't' :: 'i' :: 'o' :: 'n' :: d :: _ => isRegexWs d
  | _ => false

/-- JS replace(/\s(-|section)\s.*$/, ""): everything from the leftmost
match of the pattern to the end of the string is removed.  At the point
cleanName applies this, whitespace runs have been collapsed to single
spaces, so the string holds no newline and the .*$ tail always reaches the
end of the string. -/
def stripSection : Str → Str
  | [] => []
  | c :: rest =>
    if isRegexWs c && sectionFollows rest then []
    else c :: stripSection rest

/-- JS replace(/\s\d{3,}$/, ""): removes a whitespace character followed by
three or more digits running to the end of the string, anchored at the
leftmost position where the remainder is all digits. -/
def stripNum : Str → Str
  | [] => []
  | c :: rest =>
    if isRegexWs c && decide (3 ≤ rest.length) && rest.all isDigitCh then []
    else c :: stripNum rest

/-- todoist-export cleanName: lowercase, drop characters outside [a-z0-9\s],
collapse whitespace, trim, strip a section marker, strip a trailing course
number of three or more digits. -/
def cleanName (s : Str) : Str :=
  stripNum (stripSection (trimChars (collapseWs
    ((s.map Char.toLower).filter (fun c => isLowerAlnum c || isRegexWs c)))))

/-- C8: the project-name normalization maps "ATLS 5420-001" to "atls"
(the dash is dropped as a special character, merging the course number and
section into one trailing digit run) and "CS 2270 Section 003" to "cs"
(the section marker is stripped first, then the trailing course number). -/
theorem C8_cleanName_normalizes_examples :
    cleanName (("ATLS 5420-001").toList) = ("atls").toList
    ∧ cleanName (("CS 2270 Section 003").toList) = ("cs").toList := by
  constructor <;> rfl

/-!  Classification of a loaded content page (canvas-scraper.js). -/

/-- Observable state of one item detail page, as probed by the three
verification functions of canvas-scraper.js: presence of the assignment
container, of the quiz container, of the discussion reply action, and the
first breadcrumb segment (none when the breadcrumb element is absent). -/
structure PageContent where
  hasAssignmentContainer : Bool
  hasQuizContainer : Bool
  hasReplyAction : Bool
  breadcrumbFirst : Option Str

/-- The kind discriminant assigned by the classification step. -/
inductive ItemKind where
  | assignment
  | quiz
  | discussion
deriving DecidableEq, Repr

/-- canvas-scraper.js verify_is_assignment: the assignment container
selector resolves. -/
def verify_is_assignment (c : PageContent) : Bool :=
  c.hasAssignmentContainer

/-- canvas-scraper.js verify_is_quiz: the quiz container selector
resolves. -/
def verify_is_quiz (c : PageContent) : Bool :=
  c.hasQuizContainer

/-- The literal breadcrumb text required by verify_is_discussion. -/
def announcementsText : Str := ("Announcements").toList

/-- canvas-scraper.js verify_is_discussion: the reply action selector
resolves, the first breadcrumb element exists, and its text equals
"Announcements" exactly (a failed text extraction leaves the empty string,
which does not match). -/
def verify_is_discussion (c : PageContent) : Bool :=
  c.hasReplyAction &&
    (match c.breadcrumbFirst with
     | some t => t == announcementsText
     | none => false)

/-- canvas-scraper.js scrapeCanvasItems classification chain: probe for
assignment, then quiz, then discussion, in this fixed order; none matching
means the item is skipped. -/
def classifyContent (c : PageContent) : Option ItemKind :=
  if verify_is_assignment c then some ItemKind.assignment
  else if verify_is_quiz c then some ItemKind.quiz
  else if verify_is_discussion c then some ItemKind.discussion
  else none

/-- C9: the classification probes run in the fixed order assignment, quiz,
discussion, and the earlier kind wins whenever several markers are
satisfied; in particular a page satisfying both the assignment and the quiz
marker classifies as assignment, and a discussion classification forces the
first breadcrumb segment to be exactly "Announcements" with both
earlier markers absent. -/
theorem C9_classification_priority (c : PageContent) :
    (c.hasAssignmentContainer = true → classifyContent c = some ItemKind.assignment)
    ∧ (c.hasAssignmentContainer = false → c.hasQuizContainer = true →
        classifyContent c = some ItemKind.quiz)
    ∧ (classifyContent c = some ItemKind.discussion →
        c.breadcrumbFirst = some announcementsText
        ∧ c.hasAssignmentContainer = false ∧ c.hasQuizContainer = false) := by
  refine ⟨?_, ?_, ?_⟩
  · intro h
    simp [classifyContent, verify_is_assignment, h]
  · intro h1 h2
    simp [classifyContent, verify_is_assignment, verify_is_quiz, h1, h2]
  · intro h
    cases hA : c.hasAssignmentContainer with
    | true => simp [classifyContent, verify_is_assignment, hA] at h
    | false =>
      cases hQ : c.hasQuizContainer with
      | true =>
        simp [classifyContent, verify_is_assignment, verify_is_quiz, hA, hQ] at h
      | false =>
        cases hD : verify_is_discussion c with
        | false =>
          simp [classifyContent, verify_is_assignment, verify_is_quiz,
            hA, hQ, hD] at h
        | true =>
          refine ⟨?_, rfl, rfl⟩
          unfold verify_is_discussion at hD
          cases hB : c.breadcrumbFirst with
          | none => rw [hB] at hD; simp at hD
          | some t =>
            rw [hB] at hD
            simp only [Bool.and_eq_true, beq_iff_eq] at hD
            rw [hD.2]

/-- Witness for C9 at a page satisfying every marker at once: the
assignment kind wins. -/
theorem C9_classification_priority_witness :
    classifyContent ⟨true, true, true, some announcementsText⟩
      = some ItemKind.assignment :=
  (C9_classification_priority ⟨true, true, true, some announcementsText⟩).1 rfl

/-!  Content extractors (src/scrapers/assignment.js, quiz.js, discussion.js).
Each extractor receives the raw text of its locators, with none standing
for a missing element or a failed extraction, and produces the partial
record the scraper merges into the CanvasItem. -/

/-- The " by " connector replaced by the extractors. -/
def byMarker : Str := (" by ").toList

/-- The "Due: " lead-in stripped by the assignment extractor. -/
def dueMarker : Str := ("Due: ").toList

/-- Partial record returned by one content extractor: title, the due_date
string field, and the description (none models the JS null of quizzes). -/
structure ScrapedRecord where
  title : Str
  due_date : Str
  description : Option Str
deriving DecidableEq, Repr

/-- assignment.js scrape_assignment_data: fallback title, due date with the
first "Due: " occurrence removed then trimmed (only when the locator
found text), and the first " by " replaced by a space on whatever string
results; the description defaults to the empty string. -/
def scrape_assignment_data (titleRaw dueRaw descRaw : Option Str) : ScrapedRecord :=
  { title := titleRaw.getD (("Untitled Assignment").toList)
  , due_date := replaceFirst byMarker ([' '])
      (match dueRaw with
       | some s => trimChars (replaceFirst dueMarker [] s)
       | none => ("No due date").toList)
  , description := some (descRaw.getD []) }

/-- quiz.js scrape_quiz_data: fallback title, raw due date with only the
first " by " replaced by a space (no "Due: " stripping), and a description
that is always null. -/
def scrape_quiz_data (titleRaw dueRaw : Option Str) : ScrapedRecord :=
  { title := titleRaw.getD (("Untitled Quiz").toList)
  , due_date := replaceFirst byMarker ([' ']) (dueRaw.getD (("No due date").toList))
  , description := none }

/-- discussion.js scrape_discussion_data: fallback title, raw publish date
with only the first " by " replaced by a space (no "Due: " stripping), and
a description defaulting to the empty string. -/
def scrape_discussion_data (titleRaw dueRaw descRaw : Option Str) : ScrapedRecord :=
  { title := titleRaw.getD (("Untitled Discussion").toList)
  , due_date := replaceFirst byMarker ([' ']) (dueRaw.getD (("No publish date").toList))
  , description := some (descRaw.getD []) }

/-- C5 counterexample: the quiz extractor performs no "Due: " stripping at
all, so a quiz page whose date text begins with "Due: " yields a due-date
text that still begins with "Due: ", contradicting the claim that no
extracted item ever does. -/
theorem C5_counterexample :
    dueMarker <+: (scrape_quiz_data (some (("Quiz 1").toList))
      (some (("Due: Oct 3 at 11:59pm").toList))).due_date := by
  decide

/-!  Lemmas about replaceFirst, occurrence counting and trimming, used to
settle the amended form of C5. -/

/-- A replacement whose pattern does not occur leaves the string
unchanged. -/
theorem replaceFirst_unchanged {pat : Str} (repl : Str) :
    ∀ {s : Str}, ¬ pat <:+: s → replaceFirst pat repl s = s := by
  intro s
  induction s with
  | nil => intro _; rfl
  | cons c rest ih =>
    intro hni
    cases hpre : pat.isPrefixOf (c :: rest) with
    | true =>
      have hpp := List.isPrefixOf_iff_prefix.mp hpre
      exact absurd hpp.isInfix hni
    | false =>
      have hrest : ¬ pat <:+: rest := fun h => hni (List.infix_cons_iff.mpr (Or.inr h))
      simp [replaceFirst, hpre, ih hrest]

/-- replaceFirst either leaves a string without the pattern unchanged, or
splits the string around one occurrence of the pattern and substitutes the
replacement there. -/
theorem replaceFirst_decomp (pat repl : Str) (hp : pat ≠ []) :
    ∀ s : Str, (¬ pat <:+: s ∧ replaceFirst pat repl s = s)
      ∨ ∃ a b, s = a ++ pat ++ b ∧ replaceFirst pat repl s = a ++ repl ++ b := by
  intro s
  induction s with
  | nil =>
    left
    refine ⟨fun h => hp ?_, rfl⟩
    have := h.length_le
    simpa using List.eq_nil_of_length_eq_zero (Nat.le_zero.mp (by simpa using this))
  | cons c rest ih =>
    cases hpre : pat.isPrefixOf (c :: rest) with
    | true =>
      right
      obtain ⟨t, ht⟩ := List.isPrefixOf_iff_prefix.mp hpre
      refine ⟨[], t, by simp [← ht], ?_⟩
      simp only [replaceFirst, hpre, if_true, List.nil_append]
      rw [← ht, List.drop_left]
    | false =>
      rcases ih with ⟨hni, heq⟩ | ⟨a, b, hs, hr⟩
      · left
        refine ⟨?_, by simp [replaceFirst, hpre, heq]⟩
        intro h
        rcases List.infix_cons_iff.mp h with hl | hl
        · rw [← List.isPrefixOf_iff_prefix] at hl
          exact absurd hl (by simp [hpre])
        · exact hni hl
      · right
        exact ⟨c :: a, b, by simp [hs], by simp [replaceFirst, hpre, hr]⟩

/-- An infix of a concatenation lies in the left part, in the right part,
or spans the border with a nonempty suffix of the left part and a nonempty
prefix of the right part. -/
theorem infix_append_decomp {q a t : Str} (h : q <:+: a ++ t) :
    q <:+: a ∨ q <:+: t
    ∨ ∃ x y, x ≠ [] ∧ y ≠ [] ∧ q = x ++ y ∧ x <:+ a ∧ y <+: t := by
  obtain ⟨u, v, huv⟩ := h
  have huv2 : a ++ t = u ++ (q ++ v) := by
    rw [← huv]; simp [List.append_assoc]
  rcases List.append_eq_append_iff.mp huv2 with ⟨w, hw1, hw2⟩ | ⟨w, hw1, hw2⟩
  · right; left
    exact ⟨w, v, by rw [hw2]; simp [List.append_assoc]⟩
  · rcases List.append_eq_append_iff.mp hw2 with ⟨x, hx1, hx2⟩ | ⟨y, hy1, hy2⟩
    · left
      exact ⟨u, x, by rw [hw1, hx1]; simp [List.append_assoc]⟩
    · cases hwnil : w with
      | nil =>
        right; left
        subst hwnil
        simp only [List.nil_append] at hy1
        exact ⟨[], v, by rw [hy2, ← hy1]; simp⟩
      | cons w0 ws =>
        cases hynil : y with
        | nil =>
          left
          subst hynil
          simp only [List.append_nil] at hy1
          exact ⟨u, [], by rw [hw1, hy1]; simp⟩
        | cons y0 ys =>
          right; right
          refine ⟨w, y, by simp [hwnil], by simp [hynil], hy1, ⟨u, hw1.symm⟩, ⟨v, hy2.symm⟩⟩

/-- Unfolding equation of occCount on a cons cell. -/
theorem occCount_cons (pat : Str) (c : Char) (rest : Str) :
    occCount pat (c :: rest)
      = (if pat.isPrefixOf (c :: rest) then 1 else 0) + occCount pat rest := rfl

/-- A string holding an explicit occurrence of the pattern counts at least
one occurrence. -/
theorem occCount_pos (pat : Str) (hp : pat ≠ []) :
    ∀ a b : Str, 1 ≤ occCount pat (a ++ pat ++ b) := by
  intro a
  induction a with
  | nil =>
    intro b
    cases pat with
    | nil => exact absurd rfl hp
    | cons pc pr =>
      have hpre : (pc :: pr).isPrefixOf (pc :: (pr ++ b)) = true := by
        rw [ List.isPrefixOf_iff_prefix]
        exact ⟨b, by simp⟩
      show 1 ≤ occCount (pc :: pr) (pc :: (pr ++ b))
      rw [occCount_cons, hpre]
      simp
  | cons c a2 ih =>
    intro b
    have h1 : occCount pat ((c :: a2) ++ pat ++ b)
        = (if pat.isPrefixOf (c :: (a2 ++ pat ++ b)) then 1 else 0)
          + occCount pat (a2 ++ pat ++ b) := by
      simp [occCount_cons, List.append_assoc]
    rw [h1]
    exact le_trans (ih b) (Nat.le_add_left _ _)

/-- Two decompositions of the same string around the pattern, with prefix
parts of different lengths, force at least two counted occurrences. -/
theorem occCount_two (pat : Str) (hp : pat ≠ []) :
    ∀ a a2 b b2 : Str, a ++ pat ++ b = a2 ++ pat ++ b2 → a.length < a2.length →
      2 ≤ occCount pat (a ++ pat ++ b) := by
  intro a
  induction a with
  | nil =>
    intro a2 b b2 h1 hlen
    cases a2 with
    | nil => simp at hlen
    | cons d a3 =>
      cases pat with
      | nil => exact absurd rfl hp
      | cons pc pr =>
        have h2 : pc :: (pr ++ b) = d :: (a3 ++ (pc :: pr) ++ b2) := by
          simpa [List.append_assoc] using h1
        have htail : pr ++ b = a3 ++ (pc :: pr) ++ b2 := by
          injection h2 with _ h3
        have hpre : (pc :: pr).isPrefixOf (pc :: (pr ++ b)) = true := by
          rw [ List.isPrefixOf_iff_prefix]
          exact ⟨b, by simp⟩
        have hrest : 1 ≤ occCount (pc :: pr) (pr ++ b) := by
          rw [htail]
          exact occCount_pos (pc :: pr) hp a3 b2
        show 2 ≤ occCount (pc :: pr) (pc :: (pr ++ b))
        rw [occCount_cons, hpre]
        simp only [if_true]
        omega
  | cons c a3 ih =>
    intro a2 b b2 h1 hlen
    cases a2 with
    | nil => simp at hlen
    | cons d a4 =>
      have h2 : c :: (a3 ++ pat ++ b) = d :: (a4 ++ pat ++ b2) := by
        simpa [List.append_assoc] using h1
      have htail : a3 ++ pat ++ b = a4 ++ pat ++ b2 := by
        injection h2 with _ h3
      have hlen2 : a3.length < a4.length := by
        simpa using hlen
      have hrec := ih a4 b b2 htail hlen2
      have h4 : occCount pat ((c :: a3) ++ pat ++ b)
          = (if pat.isPrefixOf (c :: (a3 ++ pat ++ b)) then 1 else 0)
            + occCount pat (a3 ++ pat ++ b) := by
        simp [occCount_cons, List.append_assoc]
      rw [h4]
      exact le_trans hrec (Nat.le_add_left _ _)

/-- When the pattern is counted at most once, a decomposition around the
pattern is unique. -/
theorem occCount_le_one_unique (pat : Str) (hp : pat ≠ []) {s a b a2 b2 : Str}
    (hocc : occCount pat s ≤ 1) (h1 : s = a ++ pat ++ b) (h2 : s = a2 ++ pat ++ b2) :
    a = a2 ∧ b = b2 := by
  have heq : a ++ pat ++ b = a2 ++ pat ++ b2 := by rw [← h1, ← h2]
  rcases Nat.lt_trichotomy a.length a2.length with hlt | hleq | hgt
  · exfalso
    have := occCount_two pat hp a a2 b b2 heq hlt
    rw [← h1] at this
    omega
  · have heq2 : a ++ (pat ++ b) = a2 ++ (pat ++ b2) := by
      simpa [List.append_assoc] using heq
    have hab := List.append_inj heq2 hleq
    refine ⟨hab.1, ?_⟩
    have := hab.2
    exact List.append_cancel_left this
  · exfalso
    have := occCount_two pat hp a2 a b2 b heq.symm hgt
    rw [← h2] at this
    omega

/-- The trimmed string is an infix of the original. -/
theorem trimChars_within (s : Str) : trimChars s <:+: s := by
  unfold trimChars
  have h1 : s.dropWhile isRegexWs <:+ s := List.dropWhile_suffix isRegexWs
  have h2 : ((s.dropWhile isRegexWs).reverse.dropWhile isRegexWs).reverse
      <+: s.dropWhile isRegexWs := by
    have h3 : (s.dropWhile isRegexWs).reverse.dropWhile isRegexWs
        <:+ (s.dropWhile isRegexWs).reverse := List.dropWhile_suffix isRegexWs
    have h4 := List.reverse_prefix.mpr h3
    simpa using h4
  exact h2.isInfix.trans h1.isInfix

/-- Explicit character form of the " by " marker. -/
theorem byMarker_chars : byMarker = [' ', 'b', 'y', ' '] := rfl

/-- Explicit character form of the "Due: " marker. -/
theorem dueMarker_chars : dueMarker = ['D', 'u', 'e', ':', ' '] := rfl

/-- Replacing the single counted occurrence of " by " with a space leaves a
string free of " by ": the replacement space cannot recombine with its
neighbours into a new occurrence unless the original had overlapping
occurrences, which the count hypothesis excludes. -/
theorem no_by_after_replaceFirst {s : Str} (hocc : occCount byMarker s ≤ 1) :
    ¬ byMarker <:+: replaceFirst byMarker ([' ']) s := by
  intro hinf
  rcases replaceFirst_decomp byMarker ([' ']) (by decide) s with ⟨hni, heq⟩ | ⟨a, b, hs, hr⟩
  · rw [heq] at hinf
    exact hni hinf
  · rw [hr] at hinf
    have hinf2 : byMarker <:+: a ++ ([' '] ++ b) := by
      simpa [List.append_assoc] using hinf
    rcases infix_append_decomp hinf2 with hA | hT | ⟨x, y, hx0, hy0, hxy, hxa, hyt⟩
    · obtain ⟨u, v, huv⟩ := hA
      have h2 : s = u ++ byMarker ++ (v ++ byMarker ++ b) := by
        rw [hs, ← huv]
        simp [List.append_assoc]
      have hu := (occCount_le_one_unique byMarker (by decide) hocc hs h2).1
      rw [hu] at huv
      rw [byMarker_chars] at huv
      have hlen := congrArg List.length huv
      simp only [List.length_append, List.length_cons, List.length_nil] at hlen
      omega
    · rcases List.infix_cons_iff.mp (by simpa using hT) with hpre | hbin
      · obtain ⟨t, ht⟩ := hpre
        rw [byMarker_chars] at ht
        have hb : 'b' :: 'y' :: ' ' :: t = b := by
          simpa using ht
        have h2 : s = (a ++ [' ', 'b', 'y']) ++ byMarker ++ t := by
          rw [hs, ← hb, byMarker_chars]
          simp [List.append_assoc]
        have ha2 := (occCount_le_one_unique byMarker (by decide) hocc hs h2).1
        have hlen := congrArg List.length ha2
        simp only [List.length_append, List.length_cons, List.length_nil] at hlen
        omega
      · obtain ⟨u, v, huv⟩ := hbin
        have h2 : s = (a ++ byMarker ++ u) ++ byMarker ++ v := by
          rw [hs, ← huv]
          simp [List.append_assoc]
        have ha2 := (occCount_le_one_unique byMarker (by decide) hocc hs h2).1
        rw [byMarker_chars] at ha2
        have hlen := congrArg List.length ha2
        simp only [List.length_append, List.length_cons, List.length_nil] at hlen
        omega
    · cases y with
      | nil => exact hy0 rfl
      | cons y0 y1 =>
        have hyt2 : y0 :: y1 <+: ' ' :: b := by simpa using hyt
        obtain ⟨hy0eq, hy1⟩ := List.cons_prefix_cons.mp hyt2
        subst hy0eq
        rw [byMarker_chars] at hxy
        rcases x with _ | ⟨c1, _ | ⟨c2, _ | ⟨c3, _ | ⟨c4, x5⟩⟩⟩⟩
        · exact hx0 rfl
        · simp at hxy
        · simp at hxy
        · simp at hxy
          obtain ⟨hc1, hc2, hc3, hy1nil⟩ := hxy
          subst hc1
          subst hc2
          subst hc3
          subst hy1nil
          obtain ⟨a0, ha0⟩ := hxa
          have h2 : s = a0 ++ byMarker ++ (['b', 'y', ' '] ++ b) := by
            rw [hs, ← ha0, byMarker_chars]
            simp [List.append_assoc]
          have ha2 := (occCount_le_one_unique byMarker (by decide) hocc hs h2).1
          rw [← ha0] at ha2
          have hlen := congrArg List.length ha2
          simp only [List.length_append, List.length_cons, List.length_nil] at hlen
          omega
        · simp at hxy

/-- Replacing the first " by " with a space cannot create an occurrence of
"Due: " in a string that had none: a created occurrence would have to put
the characters of "Due:" directly before the replacement space, but then
the original string already contained "Due: " in front of the connector. -/
theorem no_due_after_by_replaceFirst {s : Str} (hdue : ¬ dueMarker <:+: s) :
    ¬ dueMarker <:+: replaceFirst byMarker ([' ']) s := by
  intro hinf
  rcases replaceFirst_decomp byMarker ([' ']) (by decide) s with ⟨_, heq⟩ | ⟨a, b, hs, hr⟩
  · rw [heq] at hinf
    exact hdue hinf
  · rw [hr] at hinf
    have hinf2 : dueMarker <:+: a ++ ([' '] ++ b) := by
      simpa [List.append_assoc] using hinf
    rcases infix_append_decomp hinf2 with hA | hT | ⟨x, y, hx0, hy0, hxy, hxa, hyt⟩
    · have hpa : a <+: s := ⟨byMarker ++ b, by rw [hs]; simp [List.append_assoc]⟩
      exact hdue (hA.trans hpa.isInfix)
    · rcases List.infix_cons_iff.mp (by simpa using hT) with hpre | hbin
      · obtain ⟨t, ht⟩ := hpre
        rw [dueMarker_chars] at ht
        simp at ht
      · have hsb : b <:+ s := ⟨a ++ byMarker, hs.symm⟩
        exact hdue (hbin.trans hsb.isInfix)
    · cases y with
      | nil => exact hy0 rfl
      | cons y0 y1 =>
        have hyt2 : y0 :: y1 <+: ' ' :: b := by simpa using hyt
        obtain ⟨hy0eq, hy1⟩ := List.cons_prefix_cons.mp hyt2
        subst hy0eq
        rw [dueMarker_chars] at hxy
        rcases x with _ | ⟨c1, _ | ⟨c2, _ | ⟨c3, _ | ⟨c4, _ | ⟨c5, x6⟩⟩⟩⟩⟩
        · exact hx0 rfl
        · simp at hxy
        · simp at hxy
        · simp at hxy
        · simp at hxy
          obtain ⟨hc1, hc2, hc3, hc4, hy1nil⟩ := hxy
          subst hc1
          subst hc2
          subst hc3
          subst hc4
          subst hy1nil
          obtain ⟨a0, ha0⟩ := hxa
          apply hdue
          refine ⟨a0, ['b', 'y', ' '] ++ b, ?_⟩
          rw [hs, ← ha0, dueMarker_chars, byMarker_chars]
          simp [List.append_assoc]
        · simp at hxy

/-- Trimming cannot introduce an occurrence of a pattern. -/
theorem not_infix_trim {q s : Str} (h : ¬ q <:+: s) : ¬ q <:+: trimChars s :=
  fun h2 => h (h2.trans (trimChars_within s))

/-- replaceFirst fires immediately on a string starting with the pattern. -/
theorem replaceFirst_head (pat repl tail : Str) (hp : pat ≠ []) :
    replaceFirst pat repl (pat ++ tail) = repl ++ tail := by
  cases pat with
  | nil => exact absurd rfl hp
  | cons pc pr =>
    have hpre : (pc :: pr).isPrefixOf (pc :: (pr ++ tail)) = true := by
      rw [ List.isPrefixOf_iff_prefix]
      exact ⟨tail, by simp⟩
    have hdrop : (pc :: (pr ++ tail)).drop (pc :: pr).length = tail := by
      have h2 : (pc :: pr) ++ tail = pc :: (pr ++ tail) := by simp
      rw [← h2]
      exact List.drop_left _ _
    show replaceFirst (pc :: pr) repl (pc :: (pr ++ tail)) = repl ++ tail
    simp [replaceFirst, hpre, hdrop]

/-- C5 amended: the extractors replace only the first occurrence of " by "
and only the assignment extractor removes a (first, unanchored) "Due: "
occurrence before trimming.  Under the hypotheses the raw texts make
honest — the remainder after a leading "Due: " holds no further "Due: ",
and " by " is counted at most once — the assignment due text neither starts
with "Due: " nor contains " by ", and the quiz and discussion due texts
contain no " by " (no "Due: " guarantee exists for them, as the quiz and
discussion extractors never strip that prefix). -/
theorem C5_due_date_normalization_amended (tailA rawQ rawD : Str)
    (tA dA tQ tD dD : Option Str)
    (hAdue : ¬ dueMarker <:+: tailA)
    (hAby : occCount byMarker (trimChars tailA) ≤ 1)
    (hQby : occCount byMarker rawQ ≤ 1)
    (hDby : occCount byMarker rawD ≤ 1) :
    (¬ dueMarker <+: (scrape_assignment_data tA (some (dueMarker ++ tailA)) dA).due_date
      ∧ ¬ byMarker <:+: (scrape_assignment_data tA (some (dueMarker ++ tailA)) dA).due_date)
    ∧ ¬ byMarker <:+: (scrape_quiz_data tQ (some rawQ)).due_date
    ∧ ¬ byMarker <:+: (scrape_discussion_data tD (some rawD) dD).due_date := by
  have hsimp : (scrape_assignment_data tA (some (dueMarker ++ tailA)) dA).due_date
      = replaceFirst byMarker ([' ']) (trimChars tailA) := by
    show replaceFirst byMarker ([' '])
        (trimChars (replaceFirst dueMarker [] (dueMarker ++ tailA)))
      = replaceFirst byMarker ([' ']) (trimChars tailA)
    rw [replaceFirst_head dueMarker [] tailA (by decide), List.nil_append]
  refine ⟨⟨?_, ?_⟩, ?_, ?_⟩
  · rw [hsimp]
    intro hpre
    exact no_due_after_by_replaceFirst (not_infix_trim hAdue) hpre.isInfix
  · rw [hsimp]
    exact no_by_after_replaceFirst hAby
  · exact no_by_after_replaceFirst hQby
  · exact no_by_after_replaceFirst hDby

/-- Witness for the amended C5 at realistic raw texts containing one
" by " connector each. -/
theorem C5_due_date_normalization_amended_witness :
    (¬ dueMarker <+: (scrape_assignment_data (some (("Assignment 1").toList))
        (some (dueMarker ++ ("Mon Sep 22, 2025 4:00pm by 11:59pm").toList))
        (some (("Read chapter one").toList))).due_date
      ∧ ¬ byMarker <:+: (scrape_assignment_data (some (("Assignment 1").toList))
        (some (dueMarker ++ ("Mon Sep 22, 2025 4:00pm by 11:59pm").toList))
        (some (("Read chapter one").toList))).due_date)
    ∧ ¬ byMarker <:+: (scrape_quiz_data (some (("Quiz 2").toList))
        (some (("Sep 23 at 11:59pm by 10am").toList))).due_date
    ∧ ¬ byMarker <:+: (scrape_discussion_data (some (("Announcement").toList))
        (some (("Sep 1 at 9am by noon").toList)) (some [])).due_date :=
  C5_due_date_normalization_amended
    (("Mon Sep 22, 2025 4:00pm by 11:59pm").toList)
    (("Sep 23 at 11:59pm by 10am").toList)
    (("Sep 1 at 9am by noon").toList)
    (some (("Assignment 1").toList)) (some (("Read chapter one").toList))
    (some (("Quiz 2").toList)) (some (("Announcement").toList)) (some [])
    (by decide) (by decide) (by decide) (by decide)

/-!  Data model of the reconciliation engines. -/

/-- CanvasItem: the record the scraper merges from the extractor output and
page context (fields title, due_date.string, description, class_name, url,
type); description is none for the JS null of quizzes. -/
structure CanvasItem where
  title : Str
  due_date : Str
  description : Option Str
  class_name : Str
  url : Str
  type : Str
deriving DecidableEq, Repr

/-- JS truthiness of a nullable string: null and the empty string are
falsy. -/
def strTruthy : Option Str → Bool
  | none => false
  | some s => !s.isEmpty

/-- RemoteTaskItem of the task-list service. -/
structure RemoteTask where
  id : Nat
  content : Str
  description : Option Str
  isCompleted : Bool
deriving DecidableEq, Repr

/-- RemoteProject of the task-list service. -/
structure RemoteProject where
  id : Nat
  name : Str
deriving DecidableEq, Repr

/-- Match predicate of todoist-export checkIfAlreadyAdded: exact content
equality with the item title, or the item URL appearing as a substring of
the task description (with both the URL and the description truthy). -/
def taskMatches (given_item : CanvasItem) (item : RemoteTask) : Bool :=
  (item.content == given_item.title)
  || (!given_item.url.isEmpty
      && (match item.description with
          | some d => !d.isEmpty && containsSub given_item.url d
          | none => false))

/-- todoist-export checkIfAlreadyAdded: first matching task of the
up-front snapshot, none standing for the JS false. -/
def checkIfAlreadyAdded (items : List RemoteTask) (given_item : CanvasItem) :
    Option RemoteTask :=
  items.find? (taskMatches given_item)

/-- todoist-export findRelatedProject: clean the lowercased class name and
return the id of the first project whose lowercased name contains it. -/
def findRelatedProject (projects : List RemoteProject) (class_name : Str) :
    Option Nat :=
  let cleaned_class_name := cleanName (class_name.map Char.toLower)
  (projects.find? (fun p =>
    containsSub cleaned_class_name (p.name.map Char.toLower))).map (fun p => p.id)

/-- Exceptions of the JS evaluation visible to the embedding. -/
inductive JsEvalError where
  | referenceError
deriving DecidableEq, Repr

/-- The identifier class_name read on the payload-building line of
exportToTodoist (const cleaned_class_name = cleanName(class_name.toLowerCase()))
has no binding in scope there: the per-item field is item.class_name, and
the only class_name binder in the module is the parameter of
findRelatedProject.  Evaluating the identifier therefore throws a
ReferenceError; the absent binding is modelled as none. -/
def exportClassNameBinding : Option Str := none

/-- Payload of a task-list create call (the optional fields mirror the JS
conditional object spreads). -/
structure TodoistPayload where
  content : Option Str
  projectId : Option Nat
  dueString : Option Str
  description : Option Str
  labels : Option (List Str)
  priorityNum : Nat
deriving DecidableEq, Repr

/-- Strip of the regex /^Due:\s*/i applied to the due string: a
case-insensitive leading "due:" followed by any whitespace run. -/
def stripDuePrefixCI (s : Str) : Str :=
  if (s.take 4).map Char.toLower = ("due:").toList then
    (s.drop 4).dropWhile isRegexWs
  else s

/-- Markdown link suffix appended to exported descriptions. -/
def canvasLinkSuffix (url : Str) : Str :=
  ("\n\n[Canvas Link](").toList ++ url ++ (")").toList

/-- Payload construction of exportToTodoist: the local cleanedDueDate is
computed first, then the unbound identifier class_name is evaluated, so the
construction throws before the payload object literal is assembled; the ok
branch keeps the literal visible as it would be built were the identifier
bound. -/
def buildTodoistData (item : CanvasItem) (project_id : Option Nat) :
    Except JsEvalError TodoistPayload :=
  let cleanedDueDate := stripDuePrefixCI item.due_date
  match exportClassNameBinding with
  | none => Except.error JsEvalError.referenceError
  | some cn =>
    let cleaned_class_name := cleanName (cn.map Char.toLower)
    Except.ok
      { content := if item.title.isEmpty then none else some item.title
      , projectId := project_id
      , dueString := if cleanedDueDate.isEmpty then none else some cleanedDueDate
      , description := if strTruthy item.description then
            some ((item.description.getD []) ++ canvasLinkSuffix item.url) else none
      , labels := if strTruthy item.description then
            some [cleaned_class_name, item.type] else none
      , priorityNum := 3 }

/-- Observable outcome of one iteration of the todoist export loop. -/
inductive TodoistAction where
  | skipCompleted
  | created (payload : TodoistPayload)
  | updated (id : Nat) (description : Str)
  | updateSkipped (id : Nat)
  | itemError
deriving DecidableEq, Repr

/-- One iteration of the todoist export loop, parameterized by the
duplicate-check result as the caller observes it: ok carries the return
value of checkIfAlreadyAdded, error models the check throwing, which the
surrounding catch converts into previous_item = false. -/
def processTodoistItemChecked (dupCheck : Except Unit (Option RemoteTask))
    (current_projects : List RemoteProject) (item : CanvasItem) : TodoistAction :=
  let previous_item : Option RemoteTask :=
    match dupCheck with
    | Except.ok r => r
    | Except.error _ => none
  match previous_item with
  | some p =>
    if p.isCompleted then TodoistAction.skipCompleted
    else
      match buildTodoistData item (findRelatedProject current_projects item.class_name) with
      | Except.error _ => TodoistAction.itemError
      | Except.ok _ =>
        if strTruthy item.description then
          TodoistAction.updated p.id
            ((item.description.getD []) ++ canvasLinkSuffix item.url)
        else TodoistAction.updateSkipped p.id
  | none =>
    match buildTodoistData item (findRelatedProject current_projects item.class_name) with
    | Except.error _ => TodoistAction.itemError
    | Except.ok data => TodoistAction.created data

/-- One iteration with the duplicate check actually performed. -/
def processTodoistItem (current_items : List RemoteTask)
    (current_projects : List RemoteProject) (item : CanvasItem) : TodoistAction :=
  processTodoistItemChecked (Except.ok (checkIfAlreadyAdded current_items item))
    current_projects item

/-- The whole per-item loop of exportToTodoist: the up-front snapshot stays
fixed for the run. -/
def runTodoist (current_items : List RemoteTask)
    (current_projects : List RemoteProject)
    (assignments : List CanvasItem) : List TodoistAction :=
  assignments.map (processTodoistItem current_items current_projects)

/-- Number of addTask calls an action issues. -/
def todoistCreates : TodoistAction → Nat
  | TodoistAction.created _ => 1
  | _ => 0

/-- Number of updateTask calls an action issues. -/
def todoistUpdates : TodoistAction → Nat
  | TodoistAction.updated _ _ => 1
  | _ => 0

/-- Total API calls (create or update) one action issues. -/
def todoistApiCalls (a : TodoistAction) : Nat :=
  todoistCreates a + todoistUpdates a

/-- Creates issued over a whole run. -/
def totalCreates (actions : List TodoistAction) : Nat :=
  (actions.map todoistCreates).sum

/-- Updates issued over a whole run. -/
def totalUpdates (actions : List TodoistAction) : Nat :=
  (actions.map todoistUpdates).sum

/-- A representative extracted assignment used for concrete evaluations. -/
def sampleAssignment : CanvasItem :=
  { title := ("HW 1").toList
  , due_date := ("Due: Mon Sep 22, 2025 4:00pm").toList
  , description := some (("Read chapter one").toList)
  , class_name := ("CS 2270").toList
  , url := ("https://canvas.example.edu/courses/1/assignments/11").toList
  , type := ("assignment").toList }

/-- C1 (code bug): for a new item with the credential configured and no
prior match, the loop body evaluates the unbound identifier class_name
while assembling the payload, throws a ReferenceError into the per-item
catch, and issues no create call at all — the claimed single create with
the documented payload never happens. -/
theorem C1_create_blocked_by_unbound_class_name :
    processTodoistItem [] [] sampleAssignment = TodoistAction.itemError
    ∧ totalCreates (runTodoist [] [] [sampleAssignment]) = 0 := by
  constructor <;> rfl

/-- C3 (code bug): a first run over a fresh snapshot issues zero creates
and zero updates (every non-completed item dies on the unbound class_name
identifier), so a second-run snapshot reflecting those calls is the first
snapshot unchanged, and the item again resolves to the per-item error
rather than to the claimed update-or-skip of the dual match. -/
theorem C3_idempotence_mechanism_broken :
    totalCreates (runTodoist [] [] [sampleAssignment]) = 0
    ∧ totalUpdates (runTodoist [] [] [sampleAssignment]) = 0
    ∧ processTodoistItem [] [] sampleAssignment = TodoistAction.itemError
    ∧ processTodoistItem [] [] sampleAssignment ≠ TodoistAction.skipCompleted := by
  refine ⟨rfl, rfl, rfl, by decide⟩

/-- C4: an item whose dual match resolves to a completed remote task is
skipped before any payload is built — no create and no update call is
issued, whatever the content differences. -/
theorem C4_completed_item_protected (current_items : List RemoteTask)
    (current_projects : List RemoteProject) (item : CanvasItem) (p : RemoteTask)
    (hm : checkIfAlreadyAdded current_items item = some p)
    (hc : p.isCompleted = true) :
    processTodoistItem current_items current_projects item
      = TodoistAction.skipCompleted
    ∧ todoistApiCalls (processTodoistItem current_items current_projects item)
      = 0 := by
  have h : processTodoistItem current_items current_projects item
      = TodoistAction.skipCompleted := by
    simp [processTodoistItem, processTodoistItemChecked, hm, hc]
  exact ⟨h, by rw [h]; rfl⟩

/-- A completed remote task matching the sample item by exact content. -/
def sampleCompletedTask : RemoteTask :=
  { id := 7
  , content := ("HW 1").toList
  , description := some (("old sync").toList)
  , isCompleted := true }

/-- Witness for C4 at a completed matching task. -/
theorem C4_completed_item_protected_witness :
    processTodoistItem [sampleCompletedTask] [] sampleAssignment
      = TodoistAction.skipCompleted
    ∧ todoistApiCalls (processTodoistItem [sampleCompletedTask] [] sampleAssignment)
      = 0 :=
  C4_completed_item_protected [sampleCompletedTask] [] sampleAssignment
    sampleCompletedTask (by decide) rfl

/-!  Database-service reconciliation (src/src/notion-export.js). -/

/-- Remote database record: opaque id and the text runs of the Title
property. -/
structure NotionPage where
  id : Nat
  titleRuns : List Str
deriving DecidableEq, Repr

/-- Walk of the find callback inside checkIfAlreadyAddedNotion: each page
compares the plain text of its first title run with the item title; a page
with no runs makes the callback read a property of undefined, which throws
out of the whole find call. -/
def findNotionMatch (given_item : CanvasItem) :
    List NotionPage → Except Unit (Option NotionPage)
  | [] => Except.ok none
  | p :: rest =>
    match p.titleRuns.head? with
    | none => Except.error ()
    | some t =>
      if t == given_item.title then Except.ok (some p)
      else findNotionMatch given_item rest

/-- notion-export checkIfAlreadyAddedNotion: the catch around the find
turns any thrown comparison error into false (none). -/
def checkIfAlreadyAddedNotion (items : List NotionPage)
    (given_item : CanvasItem) : Option NotionPage :=
  match findNotionMatch given_item items with
  | Except.ok r => r
  | Except.error _ => none

/-- Milliseconds subtracted by the setHours adjustment of seven hours. -/
def notionOffsetMs : Int := 7 * 3600 * 1000

/-- Models Date.prototype.toISOString as an injective canonical rendering
of the UTC instant in milliseconds; the concrete ISO 8601 spelling is
behaviour of the external Date library and no claim inspects it. -/
def isoStringOf (ms : Int) : Str := (toString ms).toList

/-- Instant the database engine attaches to an item: the chrono-node parse
result anchored at now, or now itself on parse failure, with the fixed
seven-hour offset subtracted afterwards. -/
def notionEffectiveMs (parse : Str → Option Int) (now : Int)
    (item : CanvasItem) : Int :=
  (match parse item.due_date with
   | some d => d
   | none => now) - notionOffsetMs

/-- In-place rewrite of the due_date string performed by the notion export
loop before the duplicate check: only that one field changes. -/
def notionRewriteItem (parse : Str → Option Int) (now : Int)
    (item : CanvasItem) : CanvasItem :=
  { item with due_date := isoStringOf (notionEffectiveMs parse now item) }

/-- Properties written by a database create or update call. -/
structure NotionPayload where
  title : Str
  dueStart : Str
  tags : List Str
  descriptionText : Str
  priorityNum : Option Nat
  statusName : Option Str
deriving DecidableEq, Repr

/-- Remote call issued for one item by the database engine. -/
inductive NotionAction where
  | create (payload : NotionPayload)
  | update (pageId : Nat) (payload : NotionPayload)
deriving DecidableEq, Repr

/-- Result of one iteration of the notion export loop: the item as the
loop leaves it (the loop mutates due_date.string in place), the remote
call issued, and whether the date-parse warning was logged. -/
structure NotionStepResult where
  item : CanvasItem
  action : NotionAction
  dateParseWarned : Bool
deriving DecidableEq, Repr

/-- Tag present on every exported database record. -/
def schoolTag : Str := ("School").toList

/-- Status label written on create. -/
def notStartedStatus : Str := ("Not Started").toList

/-- One iteration of the notion export loop, parameterized by the external
chrono-node parser and the reference instant now.  A parse result of none
models both parseDate returning null (which the code turns into a throw)
and parseDate itself throwing; either way the catch logs a warning and
falls back to the current date.  The due_date string of the item is then
overwritten in place with the ISO rendering of the offset-adjusted
instant; the title-only duplicate check and the issued call both see the
item after that rewrite, and a match yields a full-property update while
no match yields a create with the added fixed priority and status. -/
def processNotionItem (parse : Str → Option Int) (now : Int)
    (future_tasks : List NotionPage) (item : CanvasItem) : NotionStepResult :=
  let item2 := notionRewriteItem parse now item
  let payloadOf : Option Nat → Option Str → NotionPayload := fun pr st =>
    { title := item2.title
    , dueStart := item2.due_date
    , tags := [schoolTag, item2.class_name]
    , descriptionText := item2.description.getD []
    , priorityNum := pr
    , statusName := st }
  { item := item2
  , action :=
      match checkIfAlreadyAddedNotion future_tasks item2 with
      | some p => NotionAction.update p.id (payloadOf none none)
      | none => NotionAction.create (payloadOf (some 3) (some notStartedStatus))
  , dateParseWarned := (parse item.due_date).isNone }

/-- The whole per-item loop of exportToNotion over the up-front query
snapshot. -/
def runNotion (parse : Str → Option Int) (now : Int)
    (future_tasks : List NotionPage)
    (assignments : List CanvasItem) : List NotionStepResult :=
  assignments.map (processNotionItem parse now future_tasks)

/-- C7: when natural-language parsing of the due text fails, the database
engine logs a warning, uses the current instant as the date value, and
still issues exactly the remote call a parse result of now would have
produced — the item is never skipped and the batch keeps its length. -/
theorem C7_parse_failure_falls_back_to_now (parse : Str → Option Int)
    (now : Int) (future_tasks : List NotionPage) (item : CanvasItem)
    (rest : List CanvasItem)
    (hfail : parse item.due_date = none) :
    (processNotionItem parse now future_tasks item).dateParseWarned = true
    ∧ (processNotionItem parse now future_tasks item).item.due_date
        = isoStringOf (now - notionOffsetMs)
    ∧ (processNotionItem parse now future_tasks item).action
        = (processNotionItem (fun _ => some now) now future_tasks item).action
    ∧ (processNotionItem (fun _ => some now) now future_tasks item).dateParseWarned
        = false
    ∧ (runNotion parse now future_tasks (item :: rest)).length = rest.length + 1 := by
  refine ⟨?_, ?_, ?_, ?_, ?_⟩
  · simp [processNotionItem, hfail]
  · simp [processNotionItem, notionRewriteItem, notionEffectiveMs, hfail]
  · simp [processNotionItem, notionRewriteItem, notionEffectiveMs, hfail]
  · simp [processNotionItem]
  · simp [runNotion]

/-- Witness for C7 with a parser that fails on every input. -/
theorem C7_parse_failure_falls_back_to_now_witness :
    (processNotionItem (fun _ => none) 0 [] sampleAssignment).dateParseWarned = true
    ∧ (processNotionItem (fun _ => none) 0 [] sampleAssignment).item.due_date
        = isoStringOf (0 - notionOffsetMs)
    ∧ (processNotionItem (fun _ => none) 0 [] sampleAssignment).action
        = (processNotionItem (fun _ => some 0) 0 [] sampleAssignment).action
    ∧ (processNotionItem (fun _ => some 0) 0 [] sampleAssignment).dateParseWarned
        = false
    ∧ (runNotion (fun _ => none) 0 [] [sampleAssignment]).length = 1 :=
  C7_parse_failure_falls_back_to_now (fun _ => none) 0 [] sampleAssignment [] rfl

/-- The duplicate check walk reads only the item title, which the date
rewrite preserves. -/
theorem findNotionMatch_title_only (g g2 : CanvasItem) (ht : g.title = g2.title) :
    ∀ pages : List NotionPage, findNotionMatch g pages = findNotionMatch g2 pages := by
  intro pages
  induction pages with
  | nil => rfl
  | cons p rest ih =>
    simp only [findNotionMatch, ht, ih]

/-- C10: in both engines a duplicate check that throws is caught, the match
result becomes false, and the item takes the no-prior-match (create) path;
the failure aborts neither the item nor the batch.  For the task-list
engine a throwing check is observationally identical to a no-match result;
for the database engine a snapshot whose comparison throws yields a none
match and the create call is still issued, and both loops keep the batch
length. -/
theorem C10_duplicate_check_failure_recovers
    (current_items : List RemoteTask) (current_projects : List RemoteProject)
    (item : CanvasItem) (trest : List CanvasItem)
    (parse : Str → Option Int) (now : Int)
    (pages : List NotionPage) (nitem : CanvasItem) (nrest : List CanvasItem)
    (hthrow : findNotionMatch nitem pages = Except.error ()) :
    processTodoistItemChecked (Except.error ()) current_projects item
      = processTodoistItemChecked (Except.ok none) current_projects item
    ∧ checkIfAlreadyAddedNotion pages nitem = none
    ∧ (∃ payload, (processNotionItem parse now pages nitem).action
        = NotionAction.create payload)
    ∧ (runNotion parse now pages (nitem :: nrest)).length = nrest.length + 1
    ∧ (runTodoist current_items current_projects (item :: trest)).length
        = trest.length + 1 := by
  have hthrow2 : findNotionMatch (notionRewriteItem parse now nitem) pages
      = Except.error () := by
    rw [findNotionMatch_title_only (notionRewriteItem parse now nitem) nitem rfl pages]
    exact hthrow
  have hchk2 : checkIfAlreadyAddedNotion pages (notionRewriteItem parse now nitem)
      = none := by
    simp [checkIfAlreadyAddedNotion, hthrow2]
  refine ⟨rfl, ?_, ?_, ?_, ?_⟩
  · simp [checkIfAlreadyAddedNotion, hthrow]
  · have hact : (processNotionItem parse now pages nitem).action
        = NotionAction.create
          { title := (notionRewriteItem parse now nitem).title
          , dueStart := (notionRewriteItem parse now nitem).due_date
          , tags := [schoolTag, (notionRewriteItem parse now nitem).class_name]
          , descriptionText := (notionRewriteItem parse now nitem).description.getD []
          , priorityNum := some 3
          , statusName := some notStartedStatus } := by
      simp [processNotionItem, hchk2]
    exact ⟨_, hact⟩
  · simp [runNotion]
  · simp [runTodoist]

/-- A remote database record whose Title property has no text runs: the
comparison inside the duplicate check throws on it. -/
def emptyTitlePage : NotionPage := { id := 5, titleRuns := [] }

/-- Witness for C10 at a snapshot whose first record has no title runs. -/
theorem C10_duplicate_check_failure_recovers_witness :
    processTodoistItemChecked (Except.error ()) [] sampleAssignment
      = processTodoistItemChecked (Except.ok none) [] sampleAssignment
    ∧ checkIfAlreadyAddedNotion [emptyTitlePage] sampleAssignment = none
    ∧ (∃ payload, (processNotionItem (fun _ => some 0) 0 [emptyTitlePage]
        sampleAssignment).action = NotionAction.create payload)
    ∧ (runNotion (fun _ => some 0) 0 [emptyTitlePage] [sampleAssignment]).length = 1
    ∧ (runTodoist [] [] [sampleAssignment]).length = 1 :=
  C10_duplicate_check_failure_recovers [] [] sampleAssignment []
    (fun _ => some 0) 0 [emptyTitlePage] sampleAssignment [] rfl

/-!  Orchestrator: the export phase of main.js. -/

/-- Item list exportToTodoist leaves behind: the loop reads item fields but
never assigns to any of them, so each item leaves the loop with every field
it entered with; the record is rebuilt field by field to mirror that no
assignment occurs. -/
def todoistItemAfter (item : CanvasItem) : CanvasItem :=
  { title := item.title
  , due_date := item.due_date
  , description := item.description
  , class_name := item.class_name
  , url := item.url
  , type := item.type }

/-- The item list as the whole task-list engine run leaves it. -/
def runTodoistItemsAfter (assignments : List CanvasItem) : List CanvasItem :=
  assignments.map todoistItemAfter

/-- Rebuilding every field reproduces the item. -/
theorem todoistItemAfter_id (item : CanvasItem) : todoistItemAfter item = item := rfl

/-- The task-list engine leaves the item list unchanged. -/
theorem runTodoistItemsAfter_id (assignments : List CanvasItem) :
    runTodoistItemsAfter assignments = assignments := by
  have hfun : todoistItemAfter = id := funext todoistItemAfter_id
  rw [runTodoistItemsAfter, hfun, List.map_id]

/-- Outcome of the up-front task-list state fetch (getTasks and
getProjects). -/
inductive TodoistFetch where
  | ok (tasks : List RemoteTask) (projects : List RemoteProject)
  | failed

/-- exportToTodoist at engine level: a state-fetch failure is rethrown
inside the engine try block and rethrown again by the engine-level catch,
so it escapes to the caller; otherwise every item is processed against the
snapshot. -/
def exportToTodoistRun (fetch : TodoistFetch) (assignments : List CanvasItem) :
    Except Unit (List TodoistAction) :=
  match fetch with
  | TodoistFetch.failed => Except.error ()
  | TodoistFetch.ok tasks projects => Except.ok (runTodoist tasks projects assignments)

/-- Outcome of the database query of the notion engine. -/
inductive NotionFetch where
  | ok (pages : List NotionPage)
  | failed

/-- exportToNotion at engine level: a query failure is rethrown inside the
engine try block but the engine-level catch only logs and does not
rethrow, so the engine always returns normally — with no per-item work on
failure. -/
def exportToNotionRun (parse : Str → Option Int) (now : Int)
    (fetch : NotionFetch) (assignments : List CanvasItem) :
    List NotionStepResult :=
  match fetch with
  | NotionFetch.failed => []
  | NotionFetch.ok pages => runNotion parse now pages assignments

/-- What the export phase of main.js did: which engines were invoked,
their per-item results, whether the shared try block aborted, and the
extraction output (produced before the phase and never touched by it). -/
structure ExportPhaseResult where
  todoistInvoked : Bool
  todoistRun : Option (List TodoistAction)
  notionInvoked : Bool
  notionRun : Option (List NotionStepResult)
  phaseAborted : Bool
  extractedItems : List CanvasItem

/-- The export phase of main.js: both engine calls sit in one shared try
block, with the task-list engine first when enabled; its rethrown failure
aborts the remainder of the phase, so the database engine is not invoked.
The database engine, when reached, receives the item list exactly as the
task-list engine left it, and never throws. -/
def runExportPhase (todoistOn notionOn : Bool) (tFetch : TodoistFetch)
    (parse : Str → Option Int) (now : Int) (nFetch : NotionFetch)
    (assignments : List CanvasItem) : ExportPhaseResult :=
  if todoistOn then
    match exportToTodoistRun tFetch assignments with
    | Except.error _ =>
      { todoistInvoked := true, todoistRun := none
      , notionInvoked := false, notionRun := none
      , phaseAborted := true, extractedItems := assignments }
    | Except.ok actions =>
      if notionOn then
        { todoistInvoked := true, todoistRun := some actions
        , notionInvoked := true
        , notionRun := some (exportToNotionRun parse now nFetch
            (runTodoistItemsAfter assignments))
        , phaseAborted := false, extractedItems := assignments }
      else
        { todoistInvoked := true, todoistRun := some actions
        , notionInvoked := false, notionRun := none
        , phaseAborted := false, extractedItems := assignments }
  else
    if notionOn then
      { todoistInvoked := false, todoistRun := none
      , notionInvoked := true
      , notionRun := some (exportToNotionRun parse now nFetch assignments)
      , phaseAborted := false, extractedItems := assignments }
    else
      { todoistInvoked := false, todoistRun := none
      , notionInvoked := false, notionRun := none
      , phaseAborted := false, extractedItems := assignments }

/-- C2 counterexample: with both engines enabled and the task-list state
fetch failing, the rethrown error reaches the shared try block of main.js
before the database engine call, so the database engine is never invoked —
refuting the claim that the other engine still runs. -/
theorem C2_counterexample :
    (runExportPhase true true TodoistFetch.failed (fun _ => none) 0
        (NotionFetch.ok []) [sampleAssignment]).notionInvoked = false := rfl

/-- C2 amended: failure containment between the engines is asymmetric.  A
database-query failure aborts only the database engine (its catch swallows
the error), leaving the task-list run and the extraction output untouched;
a task-list state-fetch failure is rethrown into the shared try block, so
the database engine is skipped for the run; the already-extracted item
list is unaffected in every case. -/
theorem C2_engine_failure_containment_amended (todoistOn notionOn : Bool)
    (tasks : List RemoteTask) (projects : List RemoteProject)
    (parse : Str → Option Int) (now : Int)
    (tFetch : TodoistFetch) (nFetch : NotionFetch)
    (assignments : List CanvasItem) :
    ((runExportPhase todoistOn true (TodoistFetch.ok tasks projects) parse now
        NotionFetch.failed assignments).phaseAborted = false
      ∧ (runExportPhase todoistOn true (TodoistFetch.ok tasks projects) parse now
          NotionFetch.failed assignments).todoistRun
        = (runExportPhase todoistOn true (TodoistFetch.ok tasks projects) parse now
            nFetch assignments).todoistRun
      ∧ (runExportPhase todoistOn true (TodoistFetch.ok tasks projects) parse now
          NotionFetch.failed assignments).notionRun = some [])
    ∧ (runExportPhase true true TodoistFetch.failed parse now nFetch
        assignments).notionInvoked = false
    ∧ (runExportPhase todoistOn notionOn tFetch parse now nFetch
        assignments).extractedItems = assignments := by
  refine ⟨⟨?_, ?_, ?_⟩, ?_, ?_⟩
  · cases todoistOn <;> simp [runExportPhase, exportToTodoistRun]
  · cases todoistOn <;> simp [runExportPhase, exportToTodoistRun]
  · cases todoistOn <;> simp [runExportPhase, exportToTodoistRun, exportToNotionRun]
  · simp [runExportPhase, exportToTodoistRun]
  · cases todoistOn <;> cases notionOn <;> cases tFetch <;>
      simp [runExportPhase, exportToTodoistRun]

/-- C6: after extraction no stage modifies any field of an item except
that the database engine rewrites the due-date string to the ISO rendering
of the adjusted instant for its own call; the task-list engine, which the
orchestrator runs first, leaves the item list it hands on exactly as
extracted, and the database step preserves every other field. -/
theorem C6_item_fields_frame (parse : Str → Option Int) (now : Int)
    (pages : List NotionPage) (item : CanvasItem)
    (tasks : List RemoteTask) (projects : List RemoteProject)
    (nFetch : NotionFetch) (assignments : List CanvasItem) :
    runTodoistItemsAfter assignments = assignments
    ∧ (runExportPhase true true (TodoistFetch.ok tasks projects) parse now
        nFetch assignments).notionRun
      = some (exportToNotionRun parse now nFetch assignments)
    ∧ (processNotionItem parse now pages item).item.title = item.title
    ∧ (processNotionItem parse now pages item).item.description = item.description
    ∧ (processNotionItem parse now pages item).item.class_name = item.class_name
    ∧ (processNotionItem parse now pages item).item.url = item.url
    ∧ (processNotionItem parse now pages item).item.type = item.type
    ∧ (processNotionItem parse now pages item).item.due_date
        = isoStringOf (notionEffectiveMs parse now item) := by
  refine ⟨runTodoistItemsAfter_id assignments, ?_, ?_, ?_, ?_, ?_, ?_, ?_⟩
  · simp [runExportPhase, exportToTodoistRun, runTodoistItemsAfter_id]
  · rfl
  · rfl
  · rfl
  · rfl
  · rfl
  · rfl
